import Mathlib

/-!
Shallow embedding of the foundry-dev-tools Compass client
(clients/compass.py) and its API type helpers (utils/api_types.py),
together with theorems settling the specification claims about them.

Conventions of the embedding:
* Python strings are Lean String; opaque resource identifiers are kept
  polymorphic (they are never parsed by the code).
* Python dicts are association lists (List (key, value)); dict.update and
  the double-star merge are modelled by dict_update, which keeps the
  original key positions and lets the right operand win on duplicate keys.
* HTTP calls are modelled by an explicit server oracle passed as a
  function argument; an api method returns the value the Python method
  would produce from that server response.
* raise is modelled with Except: error carries the raised payload.
* Python warnings.warn is modelled by accumulating warning messages.
-/

namespace FoundryDevTools

/-! ## String helpers -/

/-- The needle string occurs contiguously inside the haystack string. -/
def str_contains (needle hay : String) : Prop :=
  needle.data <:+: hay.data

/-- Wrap a string in single quotes, as Python repr does for the pieces of
the error message in assert_in_literal. -/
def squote (s : String) : String :=
  "\x27" ++ s ++ "\x27"

/-- Renders a list of strings the way Python str() renders a tuple of
strings: comma-separated quoted entries between parentheses, with the
trailing comma of one-element tuples. -/
def quoted_join : List String → String
  | [] => ""
  | [o] => squote o
  | o :: rest => squote o ++ ", " ++ quoted_join rest

/-- Python tuple repr of a list of strings, used for the valid-options part
of the assert_in_literal message. -/
def py_str_tuple (l : List String) : String :=
  match l with
  | [] => "()"
  | [o] => "(" ++ squote o ++ ",)"
  | l => "(" ++ quoted_join l ++ ")"

/-- Python str.isdecimal restricted to ASCII: true when the string is
nonempty and every character is a decimal digit. -/
def str_isdecimal (s : String) : Bool :=
  !s.isEmpty && s.data.all Char.isDigit

/-- Python int() on a decimal-digit string: the base-ten value.
48 is the code point of the zero digit. -/
def py_int_of_decimal (s : String) : Nat :=
  s.data.foldl (fun n c => 10 * n + (c.toNat - 48)) 0

/-! ## utils/api_types.py -/

/-- Embedding of assert_in_literal: raise a TypeError when the passed
option is not contained in the literal; the message names the invalid
value, the variable, and the tuple of valid options. -/
def assert_in_literal (option : String) (options : List String)
    (variable_name : String) : Except String Unit :=
  if option ∈ options then Except.ok ()
  else Except.error
    (squote option ++ " is not a valid option for " ++ variable_name ++
      ", valid options are " ++ py_str_tuple options)

/-- The ResourceDecoration literal from api_types.py: the fixed vocabulary
of decoration tags. -/
inductive ResourceDecoration where
  | description
  | favorite
  | branches
  | defaultBranch
  | defaultBranchWithMarkings
  | branchesCount
  | hasBranches
  | hasMultipleBranches
  | backedObjectTypes
  | path
  | longDescription
  | inTrash
  | collections
  | namedCollections
  | tags
  | namedTags
  | «alias»
  | collaborators
  | namedAncestors
  | markings
  | projectAccessMarkings
  | linkedItems
  | contactInformation
  | classification
  | disableInheritedPermissions
  | propagatePermissions
  | resourceLevelRoleGrantsAllowed
deriving DecidableEq

/-- ALL_RESOURCE_DECORATIONS from api_types.py: the set holding every
member of the decoration vocabulary. Python sets are modelled as
duplicate-free lists throughout this embedding. -/
def ALL_RESOURCE_DECORATIONS : List ResourceDecoration :=
  [ .description, .favorite, .branches, .defaultBranch,
    .defaultBranchWithMarkings, .branchesCount, .hasBranches,
    .hasMultipleBranches, .backedObjectTypes, .path, .longDescription,
    .inTrash, .collections, .namedCollections, .tags, .namedTags,
    .«alias», .collaborators, .namedAncestors, .markings,
    .projectAccessMarkings, .linkedItems, .contactInformation,
    .classification, .disableInheritedPermissions, .propagatePermissions,
    .resourceLevelRoleGrantsAllowed ]

/-! ## Python dict model -/

variable {ρ π : Type}

/-- Keys of an association-list dict, in insertion order. -/
def dict_keys (d : List (ρ × π)) : List ρ :=
  d.map Prod.fst

/-- Python dict merge (d.update(b), or double-star merge of a then b):
keys already in a keep their position but take the value from b when b
also holds them; keys only in b are appended in b's order. -/
def dict_update [DecidableEq ρ] (a b : List (ρ × π)) : List (ρ × π) :=
  (a.map fun kv =>
    match b.find? (fun kv2 => kv2.1 == kv.1) with
    | some kv2 => (kv.1, kv2.2)
    | none => kv) ++
  b.filter (fun kv2 => !(a.any fun kv => kv.1 == kv2.1))

/-- Python d.get(k, default): the mapped value when the key is present,
the default otherwise; never raises. -/
def dict_get [DecidableEq ρ] (d : List (ρ × π)) (k : ρ) (default : π) : π :=
  match d.find? (fun kv => kv.1 == k) with
  | some kv => kv.2
  | none => default

/-- Python range(0, stop, step) for a positive step: the starting offsets
0, step, 2 * step, ... below stop. -/
def py_range (stop step : Nat) : List Nat :=
  List.range' 0 ((stop + step - 1) / step) step

/-- Python l[i : i + n]: at most n elements of l starting at index i. -/
def py_slice (l : List ρ) (i n : Nat) : List ρ :=
  (l.drop i).take n

/-! ## clients/compass.py: module constants -/

def GET_PATHS_BATCH_SIZE : Nat := 100

def GET_PROJECTS_BATCH_SIZE : Nat := 1

def DEFAULT_PROJECTS_PAGE_SIZE : Int := 100

def MINIMUM_PROJECTS_PAGE_SIZE : Int := 1

def MAXIMUM_PROJECTS_PAGE_SIZE : Int := 500

def MINIMUM_PROJECTS_SEARCH_OFFSET : Int := 0

def MAXIMUM_PROJECTS_SEARCH_OFFSET : Int := 500

/-! ## clients/compass.py: get_decoration -/

/-- The decoration argument accepted by the client methods: the sentinel
string all, or an explicit set of decorations (a duplicate-free list in
this model). A missing argument is modelled with Option around this
type. -/
inductive DecorationArg where
  | all
  | explicit (s : List ResourceDecoration)

/-- The two shapes get_decoration can return, selected by the conv flag:
a Python list (conv true) or the unchanged Python set (conv false); both
carry their elements as a Lean list. -/
inductive DecorationOut where
  | asList (l : List ResourceDecoration)
  | asSet (s : List ResourceDecoration)
deriving DecidableEq

/-- The decorations held by a get_decoration result. -/
def decoration_elems : DecorationOut → List ResourceDecoration
  | .asList l => l
  | .asSet s => s

/-- Embedding of get_decoration: the sentinel all becomes the full
vocabulary (as a list when conv, as the set otherwise), None stays None,
and an explicit set is passed through (as a list when conv). -/
def get_decoration (decoration : Option DecorationArg) (conv : Bool := true) :
    Option DecorationOut :=
  match decoration with
  | some .all =>
      some (if conv then .asList ALL_RESOURCE_DECORATIONS
            else .asSet ALL_RESOURCE_DECORATIONS)
  | none => none
  | some (.explicit s) =>
      some (if conv then .asList s else .asSet s)

/-! ## clients/compass.py: trash endpoints -/

/-- The ErrorHandlingConfig keyword arguments that api_add_to_trash and
api_restore pass to raise_foundry_api_error; a field the call site does
not pass is none. -/
structure ErrorHandlingConfig (ρ : Type) where
  info : Option String := none
  rids : Option (Finset ρ) := none

/-- The requests library calls the no-content success status 204. -/
def no_content : Nat := 204

/-- Embedding of api_add_to_trash: the response status is supplied by the
server oracle; any status other than 204 raises with an info message and
the requested rids in the error config, a 204 returns the response. -/
def api_add_to_trash (rids : Finset ρ) (status_code : Nat) :
    Except (ErrorHandlingConfig ρ) Nat :=
  if status_code ≠ no_content then
    Except.error
      { info := some "Issue while moving resource(s) to trash.", rids := some rids }
  else
    Except.ok status_code

/-- Embedding of api_restore: any status other than 204 raises with only
an info message in the error config (the rids argument is sent in the
request body but not attached to the error), a 204 returns the response. -/
def api_restore (rids : Finset ρ) (status_code : Nat) :
    Except (ErrorHandlingConfig ρ) Nat :=
  if status_code ≠ no_content then
    Except.error
      { info := some "Issue while restoring resource(s) from trash." }
  else
    Except.ok status_code

/-! ## clients/compass.py: batched path and project resolution -/

/-- The batches get_paths forms: one batch when the list is shorter than
GET_PATHS_BATCH_SIZE, otherwise slices of GET_PATHS_BATCH_SIZE starting at
every multiple of GET_PATHS_BATCH_SIZE. -/
def get_paths_batches (resource_ids : List ρ) : List (List ρ) :=
  if resource_ids.length < GET_PATHS_BATCH_SIZE then [resource_ids]
  else
    (py_range resource_ids.length GET_PATHS_BATCH_SIZE).map
      (fun i => py_slice resource_ids i GET_PATHS_BATCH_SIZE)

/-- The json answer of api_get_paths for one batch, for a server that
answers every requested identifier: one entry per identifier. -/
def api_get_paths_json (server : ρ → π) (batch : List ρ) : List (ρ × π) :=
  batch.map (fun r => (r, server r))

/-- Embedding of get_paths: issue one api_get_paths call per batch and
double-star-merge the per-batch json dicts into one result dict. -/
def get_paths [DecidableEq ρ] (server : ρ → π) (resource_ids : List ρ) :
    List (ρ × π) :=
  (get_paths_batches resource_ids).foldl
    (fun result batch => dict_update result (api_get_paths_json server batch)) []

/-- The batches get_projects_by_rids forms, exactly as the source computes
them: one batch when the list is shorter than GET_PATHS_BATCH_SIZE,
otherwise a slice of GET_PATHS_BATCH_SIZE elements starting at every
offset of range(0, length, GET_PROJECTS_BATCH_SIZE). -/
def get_projects_batches (rids : List ρ) : List (List ρ) :=
  if rids.length < GET_PATHS_BATCH_SIZE then [rids]
  else
    (py_range rids.length GET_PROJECTS_BATCH_SIZE).map
      (fun i => py_slice rids i GET_PATHS_BATCH_SIZE)

/-- Embedding of get_projects_by_rids: one api_get_projects_by_rids call
per batch, results merged with dict update. -/
def get_projects_by_rids [DecidableEq ρ] (server : ρ → π) (rids : List ρ) :
    List (ρ × π) :=
  (get_projects_batches rids).foldl
    (fun result batch => dict_update result (batch.map (fun r => (r, server r)))) []

/-! ## clients/compass.py: api_search_projects parameter handling -/

/-- Result of the page-size normalization at the top of
api_search_projects: the warnings emitted and the page size that will be
sent. -/
def normalize_page_size (page_size : Int) : List String × Int :=
  if page_size < MINIMUM_PROJECTS_PAGE_SIZE then
    (["Parameter page_size is less than the minimum page size. Defaulting to the minimum."],
      MINIMUM_PROJECTS_PAGE_SIZE)
  else if page_size > MAXIMUM_PROJECTS_PAGE_SIZE then
    (["Parameter page_size is greater than the maximum page size. Defaulting to the maximum."],
      MAXIMUM_PROJECTS_PAGE_SIZE)
  else ([], page_size)

/-- The fields of the api_search_projects request body governed by the
validated parameters, together with the warnings emitted while building
it; the other body fields are caller inputs passed through untouched and
are not modelled. -/
structure SearchProjectsRequest where
  pageSize : Int
  pageToken : Option String
  warnings : List String
deriving DecidableEq

/-- Embedding of the api_search_projects parameter handling: clamp the
page size (warning, never an error), then validate the page token (a
ValueError, modelled as Except.error, when it is not a decimal string or
its integer value lies outside the search-offset range) before any
request is built; on success the body holds the clamped page size and the
unchanged page token. -/
def api_search_projects (page_size : Int) (page_token : Option String) :
    Except String SearchProjectsRequest :=
  let normalized := normalize_page_size page_size
  match page_token with
  | none =>
      Except.ok { pageSize := normalized.2, pageToken := none, warnings := normalized.1 }
  | some t =>
      if str_isdecimal t = false then
        Except.error
          "Parameter page_token is expected to contain a number as the starting offset for the request."
      else
        let page_token_int : Int := py_int_of_decimal t
        if page_token_int < MINIMUM_PROJECTS_SEARCH_OFFSET then
          Except.error "Parameter page_token is less than the minimum search offset."
        else if page_token_int > MAXIMUM_PROJECTS_SEARCH_OFFSET then
          Except.error "Parameter page_token is greater than the maximum search offset."
        else
          Except.ok { pageSize := normalized.2, pageToken := some t, warnings := normalized.1 }

/-! ## clients/compass.py: pagination loops -/

/-- One json response of the children-listing endpoint: the page of
values and the optional next-page token (tokens are modelled by the
offset they denote). -/
structure ChildrenPage (α : Type) where
  values : List α
  nextPageToken : Option Nat

/-- Embedding of the get_child_objects_of_folder loop over a server
oracle: start with an absent token, yield the values of each page, follow
the token of the response, stop when it is none. The fuel argument bounds
the number of requests so the loop is total even against a server whose
token chain never ends. -/
def get_child_objects_of_folder (server : Option Nat → ChildrenPage α) :
    Nat → Option Nat → List α
  | 0, _ => []
  | fuel + 1, page_token =>
      let response := server page_token
      response.values ++
        (match response.nextPageToken with
         | none => []
         | some t => get_child_objects_of_folder server fuel (some t))

/-- A server over a fixed backing collection xs sliced into pages of a
fixed size p: a request with token i (absent meaning 0) answers the
elements at indices i to i + p - 1 and hands out the token i + p while
elements remain. -/
def children_server (xs : List α) (p : Nat) (tok : Option Nat) : ChildrenPage α :=
  let i := tok.getD 0
  { values := (xs.drop i).take p
    nextPageToken := if i + p < xs.length then some (i + p) else none }

/-- One json response of the project-search endpoint: the page of values
and the optional next-page token, modelled by its integer
interpretation. -/
structure SearchPage (α : Type) where
  values : List α
  nextPageToken : Option Nat

/-- The break condition of the search_projects loop: stop when the token
of the response is none or its integer value exceeds
MAXIMUM_PROJECTS_PAGE_SIZE. -/
def search_stop (next_token : Option Nat) : Bool :=
  match next_token with
  | none => true
  | some t => decide (MAXIMUM_PROJECTS_PAGE_SIZE < (t : Int))

/-- Embedding of the search_projects loop over a server oracle: yield the
values of each page, then break when the response token is none or
exceeds the maximum page size, otherwise request the next page with that
token. Fuel bounds the number of requests so the loop is total even
against a server whose tokens never trigger the break. -/
def search_projects (server : Option Nat → SearchPage α) :
    Nat → Option Nat → List α
  | 0, _ => []
  | fuel + 1, page_token =>
      let response := server page_token
      response.values ++
        (match response.nextPageToken with
         | none => []
         | some t =>
             if MAXIMUM_PROJECTS_PAGE_SIZE < (t : Int) then []
             else search_projects server fuel (some t))

/-- The token used by the search_projects loop for its j-th request when
it starts from tok: tok itself for j zero, afterwards always the token of
the previous response. -/
def search_chain_from (server : Option Nat → SearchPage α) (tok : Option Nat) :
    Nat → Option Nat
  | 0 => tok
  | k + 1 => (server (search_chain_from server tok k)).nextPageToken

/-- The token of the j-th request of a search_projects run started, as in
the source, with an absent token. -/
def search_chain (server : Option Nat → SearchPage α) : Nat → Option Nat :=
  search_chain_from server none

/-! ## clients/compass.py: resource existence -/

/-- Embedding of resource_exists: look the rid up in the json mapping the
batch existence endpoint returned and default to false when the key is
absent. -/
def resource_exists [DecidableEq ρ] (response : List (ρ × Bool)) (rid : ρ) : Bool :=
  dict_get response rid false

/-! ## Auxiliary definitions for stating the theorems -/

/-- Whether an Except value is a success (no exception was raised). -/
def except_is_ok : Except ε α → Bool
  | .ok _ => true
  | .error _ => false

/-- Concatenation of the blocks f 0, f 1, ..., f (n - 1), used to state
what a pagination loop yields over its first n pages. -/
def concat_map (f : Nat → List α) : Nat → List α
  | 0 => []
  | n + 1 => concat_map f n ++ f n

/-- A concrete two-page project-search server used to witness the
termination theorem of the search_projects loop: the first request
answers values 1 and 2 with token 3, the request with token 3 answers
value 4 with no token. -/
def c7_example_server : Option Nat → SearchPage Nat := fun tok =>
  match tok with
  | none => { values := [1, 2], nextPageToken := some 3 }
  | some 3 => { values := [4], nextPageToken := none }
  | some _ => { values := [], nextPageToken := none }

/-! ## String containment lemmas -/

theorem str_contains_parts (pre a suf : String) :
    str_contains a (pre ++ a ++ suf) := by
  exact ⟨pre.data, suf.data, by simp [String.data_append]⟩

theorem str_contains_append_left (pre : String) {a s : String}
    (h : str_contains a s) : str_contains a (pre ++ s) := by
  obtain ⟨x, y, hxy⟩ := h
  exact ⟨pre.data ++ x, y, by simp [String.data_append, hxy]⟩

theorem str_contains_append_right (suf : String) {a s : String}
    (h : str_contains a s) : str_contains a (s ++ suf) := by
  obtain ⟨x, y, hxy⟩ := h
  exact ⟨x, y ++ suf.data, by simp [String.data_append, ← hxy]⟩

theorem str_contains_squote (o : String) : str_contains o (squote o) :=
  str_contains_parts "\x27" o "\x27"

theorem str_contains_quoted_join {o : String} :
    ∀ {l : List String}, o ∈ l → str_contains o (quoted_join l)
  | [], h => absurd h (List.not_mem_nil o)
  | [a], h => by
      have ha : o = a := by simpa using h
      subst ha
      exact str_contains_squote o
  | a :: b :: rest, h => by
      rcases List.mem_cons.mp h with ha | hrest
      · subst ha
        show str_contains o (squote o ++ ", " ++ quoted_join (b :: rest))
        exact str_contains_append_right _ (str_contains_append_right _ (str_contains_squote o))
      · show str_contains o (squote a ++ ", " ++ quoted_join (b :: rest))
        exact str_contains_append_left _ (str_contains_quoted_join hrest)

theorem str_contains_py_str_tuple {o : String} {l : List String} (h : o ∈ l) :
    str_contains o (py_str_tuple l) := by
  match l, h with
  | [a], h =>
      have ha : o = a := by simpa using h
      subst ha
      show str_contains o ("(" ++ squote o ++ ",)")
      exact str_contains_append_right _ (str_contains_append_left _ (str_contains_squote o))
  | a :: b :: rest, h =>
      show str_contains o ("(" ++ quoted_join (a :: b :: rest) ++ ")")
      exact str_contains_append_right _
        (str_contains_append_left _ (str_contains_quoted_join h))

theorem str_contains_suffix (pre a : String) : str_contains a (pre ++ a) :=
  ⟨pre.data, [], by simp [String.data_append]⟩

/-! ## Claim theorems -/

/-- C9: assert_in_literal never raises when the candidate is a member of
the enumeration; on a non-member it raises a TypeError whose message
contains the offending value, the supplied variable name, and every valid
option. -/
theorem c9_assert_in_literal_spec (option : String) (options : List String)
    (variable_name : String) :
    (option ∈ options →
      assert_in_literal option options variable_name = Except.ok ()) ∧
    (option ∉ options →
      ∃ msg, assert_in_literal option options variable_name = Except.error msg ∧
        str_contains option msg ∧ str_contains variable_name msg ∧
        ∀ o ∈ options, str_contains o msg) := by
  constructor
  · intro h
    simp [assert_in_literal, h]
  · intro h
    have hmsg : assert_in_literal option options variable_name =
        Except.error (squote option ++ " is not a valid option for " ++
          variable_name ++ ", valid options are " ++ py_str_tuple options) := by
      simp [assert_in_literal, h]
    refine ⟨_, hmsg, ?_, ?_, ?_⟩
    · exact str_contains_append_right _ (str_contains_append_right _
        (str_contains_append_right _ (str_contains_append_right _
          (str_contains_squote option))))
    · exact str_contains_append_right _ (str_contains_append_right _
        (str_contains_suffix _ variable_name))
    · intro o ho
      exact str_contains_append_left _ (str_contains_py_str_tuple ho)

/-- Witness for C9 at a concrete enumeration: the member ADD is accepted
and the non-member BOGUS raises with value, variable and options in the
message. -/
theorem c9_assert_in_literal_spec_witness :
    assert_in_literal "ADD" ["ADD", "REMOVE"] "patch_operation" = Except.ok () ∧
    (∃ msg, assert_in_literal "BOGUS" ["ADD", "REMOVE"] "patch_operation" = Except.error msg ∧
      str_contains "BOGUS" msg ∧ str_contains "patch_operation" msg ∧
      ∀ o ∈ ["ADD", "REMOVE"], str_contains o msg) :=
  ⟨(c9_assert_in_literal_spec "ADD" ["ADD", "REMOVE"] "patch_operation").1 (by decide),
   (c9_assert_in_literal_spec "BOGUS" ["ADD", "REMOVE"] "patch_operation").2 (by decide)⟩

/-- C10: resource_exists returns false rather than raising when the batch
existence response does not contain the rid as a key, and returns the
mapped boolean when the key is present. -/
theorem c10_resource_exists_default {ρ : Type} [DecidableEq ρ]
    (response : List (ρ × Bool)) (rid : ρ) :
    (rid ∉ dict_keys response → resource_exists response rid = false) ∧
    ((dict_keys response).Nodup →
      ∀ b, (rid, b) ∈ response → resource_exists response rid = b) := by
  constructor
  · intro h
    have hf : response.find? (fun kv => kv.1 == rid) = none := by
      rw [List.find?_eq_none]
      intro kv hkv
      simp only [beq_iff_eq]
      intro hk
      exact h (hk ▸ List.mem_map_of_mem Prod.fst hkv)
    simp [resource_exists, dict_get, hf]
  · intro hnd b hmem
    induction response with
    | nil => cases hmem
    | cons hd tl ih =>
        by_cases hhd : hd.1 = rid
        · have hfind : (hd :: tl).find? (fun kv => kv.1 == rid) = some hd :=
            List.find?_cons_of_pos _ (by simpa using hhd)
          have hval : hd.2 = b := by
            rcases List.mem_cons.mp hmem with heq | htl
            · rw [← heq]
            · exfalso
              have hk : rid ∈ dict_keys tl := List.mem_map_of_mem Prod.fst htl
              have hno : hd.1 ∉ dict_keys tl :=
                (List.nodup_cons.mp (show (hd.1 :: dict_keys tl).Nodup from hnd)).1
              exact hno (hhd ▸ hk)
          simp [resource_exists, dict_get, hfind, hval]
        · have hfind := List.find?_cons_of_neg (l := tl)
            (p := fun kv => kv.1 == rid) (a := hd) (by simpa using hhd)
          have htl : (rid, b) ∈ tl := by
            rcases List.mem_cons.mp hmem with heq | htl
            · exact absurd (by rw [← heq]) hhd
            · exact htl
          have hndtl : (dict_keys tl).Nodup :=
            (List.nodup_cons.mp (show (hd.1 :: dict_keys tl).Nodup from hnd)).2
          have := ih hndtl htl
          simpa [resource_exists, dict_get, hfind] using this

/-- Witness for C10 at a concrete response: a missing key gives false, a
present key gives its mapped value. -/
theorem c10_resource_exists_default_witness :
    resource_exists [("x", true), ("y", false)] "z" = false ∧
    resource_exists [("x", true), ("y", false)] "x" = true :=
  ⟨(c10_resource_exists_default [("x", true), ("y", false)] "z").1 (by decide),
   (c10_resource_exists_default [("x", true), ("y", false)] "x").2 (by decide) true (by decide)⟩

theorem mem_all_resource_decorations (d : ResourceDecoration) :
    d ∈ ALL_RESOURCE_DECORATIONS := by
  cases d <;> decide

/-- C5: get_decoration maps None to None for either flag, maps the all
sentinel with conv to the full vocabulary as a duplicate-free list, passes
an explicit set through unchanged when conv is false, and every result is
a subset of the fixed vocabulary. -/
theorem c5_get_decoration_spec :
    (∀ conv, get_decoration none conv = none) ∧
    (get_decoration (some .all) true = some (.asList ALL_RESOURCE_DECORATIONS) ∧
      ALL_RESOURCE_DECORATIONS.Nodup ∧
      ∀ d : ResourceDecoration, d ∈ ALL_RESOURCE_DECORATIONS) ∧
    (∀ s, get_decoration (some (.explicit s)) false = some (.asSet s)) ∧
    (∀ arg conv out, get_decoration arg conv = some out →
      decoration_elems out ⊆ ALL_RESOURCE_DECORATIONS) := by
  refine ⟨fun conv => rfl, ⟨rfl, by decide, mem_all_resource_decorations⟩,
    fun s => rfl, ?_⟩
  intro arg conv out _h x _hx
  exact mem_all_resource_decorations x

/-- Witness for C5: the result for the all sentinel is inside the
vocabulary. -/
theorem c5_get_decoration_spec_witness :
    decoration_elems (.asList ALL_RESOURCE_DECORATIONS) ⊆ ALL_RESOURCE_DECORATIONS :=
  c5_get_decoration_spec.2.2.2 (some .all) true (.asList ALL_RESOURCE_DECORATIONS) rfl

/-- C2 counterexample: a restore call answered with status 200 raises,
but the raised error configuration carries no resource identifiers, so
the error does not include the set of identifiers originally requested. -/
theorem c2_restore_error_lacks_rids :
    ∃ e : ErrorHandlingConfig String,
      api_restore ({"a"} : Finset String) 200 = Except.error e ∧ e.rids = none :=
  ⟨_, rfl, rfl⟩

/-- C2 amended: on any status other than 204 both trash operations raise,
api_add_to_trash with the requested identifier set and an info message in
the error, api_restore with only an info message and no identifiers; on
204 both return without raising. -/
theorem c2_trash_status_errors (ρ : Type) [DecidableEq ρ]
    (rids : Finset ρ) (status_code : Nat) :
    (status_code ≠ 204 →
      (∃ e, api_add_to_trash rids status_code = Except.error e ∧
        e.rids = some rids ∧ e.info.isSome = true) ∧
      (∃ e, api_restore rids status_code = Except.error e ∧
        e.rids = none ∧ e.info.isSome = true)) ∧
    (status_code = 204 →
      api_add_to_trash rids status_code = Except.ok status_code ∧
      api_restore rids status_code = Except.ok status_code) := by
  constructor
  · intro h
    refine
      ⟨⟨{ info := some "Issue while moving resource(s) to trash.", rids := some rids },
        ?_, rfl, rfl⟩,
       ⟨{ info := some "Issue while restoring resource(s) from trash." },
        ?_, rfl, rfl⟩⟩ <;>
      simp [api_add_to_trash, api_restore, no_content, h]
  · intro h
    subst h
    exact ⟨rfl, rfl⟩

/-- Witness for C2 amended at status 500 and a concrete identifier set. -/
theorem c2_trash_status_errors_witness :
    (∃ e, api_add_to_trash ({"a"} : Finset String) 500 = Except.error e ∧
      e.rids = some {"a"} ∧ e.info.isSome = true) ∧
    (∃ e, api_restore ({"a"} : Finset String) 500 = Except.error e ∧
      e.rids = none ∧ e.info.isSome = true) :=
  (c2_trash_status_errors String {"a"} 500).1 (by decide)

set_option maxRecDepth 8000

/-- C1: evaluation of the code at a list of one hundred distinct project
identifiers. The claim expects disjoint chunks of GET_PROJECTS_BATCH_SIZE
with every identifier in exactly one chunk; the code instead forms one
hundred chunks of up to one hundred identifiers (the first chunk alone
holds all one hundred), and identifier 99 is sent in all one hundred
chunks. -/
theorem c1_get_projects_batches_overlap :
    GET_PROJECTS_BATCH_SIZE = 1 ∧
    (get_projects_batches (List.range 100)).length = 100 ∧
    ((get_projects_batches (List.range 100)).getD 0 []).length = 100 ∧
    (get_projects_batches (List.range 100)).countP (fun b => b.contains 99) = 100 := by
  decide

/-- C4: the page size sent by api_search_projects is the input clamped
into the inclusive range 1 to 500, a warning is emitted exactly when
clamping happened, and page-size handling never raises for any integer
page size. -/
theorem c4_search_page_size_clamping (page_size : Int) :
    (normalize_page_size page_size).2 =
      (if page_size < 1 then 1 else if page_size > 500 then 500 else page_size) ∧
    ((normalize_page_size page_size).1 ≠ [] ↔ (page_size < 1 ∨ page_size > 500)) ∧
    except_is_ok (api_search_projects page_size none) = true := by
  by_cases h1 : page_size < 1 <;> by_cases h2 : page_size > 500 <;>
    simp [normalize_page_size, api_search_projects, except_is_ok,
      MINIMUM_PROJECTS_PAGE_SIZE, MAXIMUM_PROJECTS_PAGE_SIZE, h1, h2]

theorem api_search_projects_some_eq (page_size : Int) (t : String) :
    api_search_projects page_size (some t) =
      (if str_isdecimal t = false then
        Except.error
          "Parameter page_token is expected to contain a number as the starting offset for the request."
      else if (py_int_of_decimal t : Int) > MAXIMUM_PROJECTS_SEARCH_OFFSET then
        Except.error "Parameter page_token is greater than the maximum search offset."
      else
        Except.ok
          { pageSize := (normalize_page_size page_size).2
            pageToken := some t
            warnings := (normalize_page_size page_size).1 }) := by
  have h0 : ¬((py_int_of_decimal t : Int) < MINIMUM_PROJECTS_SEARCH_OFFSET) :=
    not_lt.mpr (Int.natCast_nonneg _)
  simp only [api_search_projects, h0, if_false, ite_false, if_neg h0]

/-- C3: api_search_projects raises a ValueError exactly when the page
token is present and is either not a decimal string or denotes an integer
outside the inclusive search-offset range 0 to 500; an accepted token is
forwarded in the request body unchanged. -/
theorem c3_search_page_token_validation (page_size : Int) (page_token : Option String) :
    (except_is_ok (api_search_projects page_size page_token) = false ↔
      ∃ t, page_token = some t ∧
        (str_isdecimal t = false ∨
          ¬(MINIMUM_PROJECTS_SEARCH_OFFSET ≤ (py_int_of_decimal t : Int) ∧
            (py_int_of_decimal t : Int) ≤ MAXIMUM_PROJECTS_SEARCH_OFFSET))) ∧
    (∀ r, api_search_projects page_size page_token = Except.ok r →
      r.pageToken = page_token) := by
  have e1 : MINIMUM_PROJECTS_SEARCH_OFFSET = (0 : Int) := rfl
  have e2 : MAXIMUM_PROJECTS_SEARCH_OFFSET = (500 : Int) := rfl
  cases page_token with
  | none =>
      refine ⟨by simp [api_search_projects, except_is_ok], ?_⟩
      intro r hr
      simp only [api_search_projects] at hr
      cases hr
      rfl
  | some t =>
      rw [api_search_projects_some_eq]
      cases hds : str_isdecimal t with
      | false =>
          rw [if_pos rfl]
          exact ⟨⟨fun _ => ⟨t, rfl, Or.inl hds⟩, fun _ => rfl⟩,
            fun r hr => Except.noConfusion hr⟩
      | true =>
          rw [if_neg (by simp [hds])]
          by_cases hb : (py_int_of_decimal t : Int) > MAXIMUM_PROJECTS_SEARCH_OFFSET
          · rw [if_pos hb]
            refine ⟨⟨fun _ => ⟨t, rfl, Or.inr ?_⟩, fun _ => rfl⟩,
              fun r hr => Except.noConfusion hr⟩
            rw [e2] at hb
            rw [e1, e2]
            omega
          · rw [if_neg hb]
            refine ⟨⟨fun hfalse => ?_, fun hex => ?_⟩, fun r hr => ?_⟩
            · exact absurd hfalse (by simp [except_is_ok])
            · exfalso
              obtain ⟨t2, ht2, hcase⟩ := hex
              injection ht2 with h2
              subst h2
              rcases hcase with hdf | hrange
              · rw [hds] at hdf
                exact Bool.noConfusion hdf
              · apply hrange
                rw [e1, e2]
                rw [e2] at hb
                exact ⟨Int.natCast_nonneg _, not_lt.mp hb⟩
            · cases hr
              rfl

/-- Witness for C3: the decimal token 42 is accepted and forwarded
unchanged. -/
theorem c3_search_page_token_validation_witness :
    ∃ r, api_search_projects 100 (some "42") = Except.ok r ∧ r.pageToken = some "42" := by
  have hr : api_search_projects 100 (some "42") =
      Except.ok { pageSize := 100, pageToken := some "42", warnings := [] } := rfl
  exact ⟨_, hr, (c3_search_page_token_validation 100 (some "42")).2 _ hr⟩

theorem dict_update_nil {ρ π : Type} [DecidableEq ρ] (b : List (ρ × π)) :
    dict_update [] b = b := by
  simp [dict_update]

theorem dict_update_disjoint {ρ π : Type} [DecidableEq ρ] (a b : List (ρ × π))
    (h : ∀ k ∈ dict_keys a, k ∉ dict_keys b) : dict_update a b = a ++ b := by
  unfold dict_update
  have h1 : (a.map fun kv =>
      match b.find? (fun kv2 => kv2.1 == kv.1) with
      | some kv2 => (kv.1, kv2.2)
      | none => kv) = a := by
    have hpt : ∀ kv ∈ a,
        (match b.find? (fun kv2 => kv2.1 == kv.1) with
         | some kv2 => (kv.1, kv2.2)
         | none => kv) = kv := by
      intro kv hkv
      have hf : b.find? (fun kv2 => kv2.1 == kv.1) = none := by
        rw [List.find?_eq_none]
        intro x hx
        simp only [beq_iff_eq]
        intro hk
        exact h kv.1 (List.mem_map_of_mem Prod.fst hkv)
          (hk ▸ List.mem_map_of_mem Prod.fst hx)
      rw [hf]
    rw [List.map_congr_left hpt]
    simp
  have h2 : b.filter (fun kv2 => !(a.any fun kv => kv.1 == kv2.1)) = b := by
    rw [List.filter_eq_self]
    intro kv2 hkv2
    simp only [Bool.not_eq_true', List.any_eq_false, beq_iff_eq]
    intro kv hkv hk
    exact h kv.1 (List.mem_map_of_mem Prod.fst hkv)
      (hk ▸ List.mem_map_of_mem Prod.fst hkv2)
  rw [h1, h2]

theorem dict_keys_api_get_paths_json {ρ π : Type} (server : ρ → π) (c : List ρ) :
    dict_keys (api_get_paths_json server c) = c := by
  unfold dict_keys api_get_paths_json
  rw [List.map_map]
  have hfun : (Prod.fst ∘ fun r : ρ => (r, server r)) = fun r => r := rfl
  rw [hfun]
  simp

/-- C8: on a list of 250 distinct resource identifiers, get_paths forms
exactly 3 batches of sizes 100, 100 and 50, and merging the per-batch
answers of a server that resolves every identifier yields one mapping
with exactly one entry per requested identifier. -/
theorem c8_get_paths_batching {ρ π : Type} [DecidableEq ρ] (server : ρ → π)
    (resource_ids : List ρ) (hlen : resource_ids.length = 250)
    (hnd : resource_ids.Nodup) :
    (get_paths_batches resource_ids).length = 3 ∧
    (get_paths_batches resource_ids).map List.length = [100, 100, 50] ∧
    get_paths server resource_ids = resource_ids.map (fun r => (r, server r)) ∧
    dict_keys (get_paths server resource_ids) = resource_ids ∧
    (get_paths server resource_ids).length = 250 := by
  have hb : get_paths_batches resource_ids =
      [py_slice resource_ids 0 100, py_slice resource_ids 100 100,
        py_slice resource_ids 200 100] := by
    unfold get_paths_batches py_range GET_PATHS_BATCH_SIZE
    rw [hlen, if_neg (by norm_num)]
    norm_num
    rfl
  have hc1 : py_slice resource_ids 0 100 = resource_ids.take 100 := by
    simp [py_slice]
  have hc2 : py_slice resource_ids 100 100 = (resource_ids.drop 100).take 100 := rfl
  have hc3 : py_slice resource_ids 200 100 = resource_ids.drop 200 := by
    simp only [py_slice]
    exact List.take_of_length_le (by simp [hlen])
  have h23 : (resource_ids.drop 100).take 100 ++ resource_ids.drop 200 =
      resource_ids.drop 100 := by
    rw [show (200 : Nat) = 100 + 100 from rfl, List.drop_take_append_drop]
  have hsplit : resource_ids.take 100 ++
      ((resource_ids.drop 100).take 100 ++ resource_ids.drop 200) = resource_ids := by
    rw [h23, List.take_append_drop]
  have hndsplit : (resource_ids.take 100 ++
      ((resource_ids.drop 100).take 100 ++ resource_ids.drop 200)).Nodup := by
    rw [hsplit]; exact hnd
  obtain ⟨hnd1, hnd23, hdisj1⟩ := List.nodup_append.mp hndsplit
  obtain ⟨hnd2, hnd3, hdisj23⟩ := List.nodup_append.mp hnd23
  have hlen1 : (resource_ids.take 100).length = 100 := by simp [hlen]
  have hlen2 : ((resource_ids.drop 100).take 100).length = 100 := by simp [hlen]
  have hlen3 : (resource_ids.drop 200).length = 50 := by simp [hlen]
  have hu1 : dict_update (api_get_paths_json server (resource_ids.take 100))
      (api_get_paths_json server ((resource_ids.drop 100).take 100)) =
      api_get_paths_json server (resource_ids.take 100) ++
        api_get_paths_json server ((resource_ids.drop 100).take 100) := by
    apply dict_update_disjoint
    rw [dict_keys_api_get_paths_json, dict_keys_api_get_paths_json]
    intro k hk1 hk2
    exact hdisj1 hk1 (List.mem_append_left _ hk2)
  have hu2 : dict_update
      (api_get_paths_json server (resource_ids.take 100) ++
        api_get_paths_json server ((resource_ids.drop 100).take 100))
      (api_get_paths_json server (resource_ids.drop 200)) =
      (api_get_paths_json server (resource_ids.take 100) ++
        api_get_paths_json server ((resource_ids.drop 100).take 100)) ++
        api_get_paths_json server (resource_ids.drop 200) := by
    apply dict_update_disjoint
    intro k hk12 hk3
    rw [dict_keys_api_get_paths_json] at hk3
    simp only [dict_keys, List.map_append] at hk12
    rcases List.mem_append.mp hk12 with hk1 | hk2
    · have hm1 : k ∈ resource_ids.take 100 := by
        have he := dict_keys_api_get_paths_json server (resource_ids.take 100)
        simp only [dict_keys] at he
        rwa [he] at hk1
      exact hdisj1 hm1 (List.mem_append_right _ hk3)
    · have hm2 : k ∈ (resource_ids.drop 100).take 100 := by
        have he := dict_keys_api_get_paths_json server ((resource_ids.drop 100).take 100)
        simp only [dict_keys] at he
        rwa [he] at hk2
      exact hdisj23 hm2 hk3
  have hmerge : get_paths server resource_ids =
      resource_ids.map (fun r => (r, server r)) := by
    unfold get_paths
    rw [hb, hc1, hc2, hc3]
    simp only [List.foldl]
    rw [dict_update_nil, hu1, hu2]
    unfold api_get_paths_json
    rw [← List.map_append, ← List.map_append, List.append_assoc, hsplit]
  refine ⟨by rw [hb]; rfl, ?_, hmerge, ?_, ?_⟩
  · rw [hb, hc1, hc2, hc3]
    simp only [List.map_cons, List.map_nil, hlen1, hlen2, hlen3]
  · rw [hmerge]
    exact dict_keys_api_get_paths_json server resource_ids
  · rw [hmerge, List.length_map, hlen]

/-- Witness for C8 on the concrete list of the identifiers 0 to 249: 3
batches of sizes 100, 100, 50 and a merged mapping holding every
identifier. -/
theorem c8_get_paths_batching_witness :
    (get_paths_batches (List.range 250)).map List.length = [100, 100, 50] ∧
    get_paths (fun r => r) (List.range 250) = (List.range 250).map (fun r => (r, r)) := by
  have h := c8_get_paths_batching (fun r => r) (List.range 250)
    (by simp) (List.nodup_range 250)
  exact ⟨h.2.1, h.2.2.1⟩

theorem children_loop_drains (α : Type) (xs : List α) (p : Nat) :
    ∀ (fuel : Nat) (tok : Option Nat),
      xs.length ≤ tok.getD 0 + fuel * p →
      get_child_objects_of_folder (children_server xs p) fuel tok =
        xs.drop (tok.getD 0) := by
  intro fuel
  induction fuel with
  | zero =>
      intro tok h
      simp only [Nat.zero_mul, Nat.add_zero] at h
      simp only [get_child_objects_of_folder]
      exact (List.drop_eq_nil_of_le h).symm
  | succ fuel ih =>
      intro tok h
      by_cases hcase : tok.getD 0 + p < xs.length
      · have hserver : children_server xs p tok =
            { values := (xs.drop (tok.getD 0)).take p
              nextPageToken := some (tok.getD 0 + p) } := by
          simp [children_server, hcase]
        have hbound : xs.length ≤ (some (tok.getD 0 + p)).getD 0 + fuel * p := by
          simp only [Option.getD_some]
          rw [Nat.succ_mul] at h
          omega
        simp only [get_child_objects_of_folder, hserver]
        rw [ih (some (tok.getD 0 + p)) hbound]
        simp only [Option.getD_some]
        exact List.drop_take_append_drop xs (tok.getD 0) p
      · have hserver : children_server xs p tok =
            { values := (xs.drop (tok.getD 0)).take p
              nextPageToken := none } := by
          simp [children_server, hcase]
        simp only [get_child_objects_of_folder, hserver]
        rw [List.append_nil]
        apply List.take_of_length_le
        simp only [List.length_drop]
        omega

/-- C6: over a fixed backing collection served in pages of any positive
fixed size, the children pagination loop starts with an absent token,
follows the response tokens, stops on a null token, and yields exactly
the backing collection, each element exactly once and in order. -/
theorem c6_child_pagination_exact (α : Type) (xs : List α) (p : Nat) (hp : 0 < p) :
    get_child_objects_of_folder (children_server xs p) (xs.length + 1) none = xs := by
  have hbound : xs.length ≤ (none : Option Nat).getD 0 + (xs.length + 1) * p := by
    simp only [Option.getD_none, Nat.zero_add]
    calc xs.length ≤ xs.length + 1 := Nat.le_succ _
      _ = (xs.length + 1) * 1 := (Nat.mul_one _).symm
      _ ≤ (xs.length + 1) * p := Nat.mul_le_mul_left _ hp
  have h := children_loop_drains α xs p (xs.length + 1) none hbound
  simpa using h

/-- Witness for C6: a five-element collection paged two at a time is
yielded exactly. -/
theorem c6_child_pagination_exact_witness :
    get_child_objects_of_folder (children_server [5, 6, 7, 8, 9] 2) 6 none =
      [5, 6, 7, 8, 9] :=
  c6_child_pagination_exact Nat [5, 6, 7, 8, 9] 2 (by decide)

theorem search_chain_from_succ {α : Type} (server : Option Nat → SearchPage α)
    (tok : Option Nat) (k : Nat) :
    search_chain_from server tok (k + 1) =
      search_chain_from server ((server tok).nextPageToken) k := by
  induction k with
  | zero => rfl
  | succ k ih =>
      show (server (search_chain_from server tok (k + 1))).nextPageToken = _
      rw [ih]
      rfl

theorem concat_map_succ_head {β : Type} (g : Nat → List β) (n : Nat) :
    concat_map g (n + 1) = g 0 ++ concat_map (fun j => g (j + 1)) n := by
  induction n with
  | zero => simp [concat_map]
  | succ n ih =>
      show concat_map g (n + 1) ++ g (n + 1) = _
      rw [ih]
      show g 0 ++ concat_map (fun j => g (j + 1)) n ++ g (n + 1) =
        g 0 ++ (concat_map (fun j => g (j + 1)) n ++ g (n + 1))
      rw [List.append_assoc]

theorem concat_map_congr {β : Type} {f g : Nat → List β} (h : ∀ j, f j = g j) :
    ∀ n, concat_map f n = concat_map g n := by
  intro n
  induction n with
  | zero => rfl
  | succ n ih =>
      show concat_map f n ++ f n = concat_map g n ++ g n
      rw [ih, h]

theorem search_loop_pages {α : Type} (server : Option Nat → SearchPage α) :
    ∀ (k : Nat) (tok : Option Nat) (fuel : Nat),
      (∀ j, j < k →
        search_stop ((server (search_chain_from server tok j)).nextPageToken) = false) →
      search_stop ((server (search_chain_from server tok k)).nextPageToken) = true →
      k < fuel →
      search_projects server fuel tok =
        concat_map (fun j => (server (search_chain_from server tok j)).values) (k + 1) := by
  intro k
  induction k with
  | zero =>
      intro tok fuel _ hstop hf
      obtain ⟨f, rfl⟩ : ∃ f, fuel = f + 1 := ⟨fuel - 1, by omega⟩
      simp only [search_chain_from] at hstop
      cases hnt : (server tok).nextPageToken with
      | none =>
          simp [search_projects, hnt, concat_map, search_chain_from]
      | some t =>
          rw [hnt] at hstop
          simp only [search_stop, decide_eq_true_eq] at hstop
          simp [search_projects, hnt, hstop, concat_map, search_chain_from]
  | succ k ih =>
      intro tok fuel hrun hstop hf
      obtain ⟨f, rfl⟩ : ∃ f, fuel = f + 1 := ⟨fuel - 1, by omega⟩
      have h0 := hrun 0 (Nat.succ_pos k)
      simp only [search_chain_from] at h0
      cases hnt : (server tok).nextPageToken with
      | none =>
          rw [hnt] at h0
          simp [search_stop] at h0
      | some t =>
          rw [hnt] at h0
          simp only [search_stop, decide_eq_false_iff_not] at h0
          have hstep : search_projects server (f + 1) tok =
              (server tok).values ++ search_projects server f (some t) := by
            simp [search_projects, hnt, h0]
          have hshift : ∀ j, search_chain_from server tok (j + 1) =
              search_chain_from server (some t) j := by
            intro j
            rw [search_chain_from_succ, hnt]
          have hrun2 : ∀ j, j < k →
              search_stop ((server (search_chain_from server (some t) j)).nextPageToken) = false := by
            intro j hj
            rw [← hshift j]
            exact hrun (j + 1) (by omega)
          have hstop2 :
              search_stop ((server (search_chain_from server (some t) k)).nextPageToken) = true := by
            rw [← hshift k]
            exact hstop
          have hcc : concat_map
              (fun j => (server (search_chain_from server (some t) j)).values) (k + 1) =
              concat_map
                (fun j => (server (search_chain_from server tok (j + 1))).values) (k + 1) :=
            concat_map_congr (fun j => by rw [hshift j]) (k + 1)
          calc search_projects server (f + 1) tok
              = (server tok).values ++ search_projects server f (some t) := hstep
            _ = (server tok).values ++ concat_map
                  (fun j => (server (search_chain_from server (some t) j)).values) (k + 1) := by
                rw [ih (some t) f hrun2 hstop2 (by omega)]
            _ = (server tok).values ++ concat_map
                  (fun j => (server (search_chain_from server tok (j + 1))).values) (k + 1) := by
                rw [hcc]
            _ = concat_map
                  (fun j => (server (search_chain_from server tok j)).values) (k + 1 + 1) := by
                rw [concat_map_succ_head
                  (fun j => (server (search_chain_from server tok j)).values) (k + 1)]
                rfl

/-- C7: whenever the token of the response to the request of index k is
null or exceeds the maximum page size while every earlier response token
does neither, the search_projects loop, run with any fuel above k,
terminates after yielding exactly the pages of requests 0 through k; for
every non-stopping token it issues the next request with that token. -/
theorem c7_search_projects_termination (α : Type) (server : Option Nat → SearchPage α)
    (k : Nat)
    (hrun : ∀ j, j < k →
      search_stop ((server (search_chain server j)).nextPageToken) = false)
    (hstop : search_stop ((server (search_chain server k)).nextPageToken) = true) :
    ∀ fuel, k < fuel →
      search_projects server fuel none =
        concat_map (fun j => (server (search_chain server j)).values) (k + 1) := by
  intro fuel hf
  exact search_loop_pages server k none fuel hrun hstop hf

/-- Witness for C7: a two-page server whose second response carries a
null token makes the loop yield exactly the two pages and stop. -/
theorem c7_search_projects_termination_witness :
    search_projects c7_example_server 2 none =
      concat_map (fun j => (c7_example_server (search_chain c7_example_server j)).values) 2 := by
  have hrun : ∀ j, j < 1 →
      search_stop ((c7_example_server (search_chain c7_example_server j)).nextPageToken) = false := by
    intro j hj
    have hj0 : j = 0 := by omega
    subst hj0
    decide
  have hstop :
      search_stop ((c7_example_server (search_chain c7_example_server 1)).nextPageToken) = true := by
    decide
  exact c7_search_projects_termination Nat c7_example_server 1 hrun hstop 2 (by decide)

end FoundryDevTools
